import Mathlib

/-!
Shallow embedding of the Todo state model (`TodoModel` from the repository's
todo-model module) together with the storage/notification effects it performs.

The store keeps the list of todos and the `nextId` counter.  The private
`save()` method writes `items` and `nextId` to the storage adapter and the
private `notify()` method invokes every subscribed listener; both are modelled
by counters recording how many times each effect happened, which is the
observable the specification talks about ("persists", "notifies", "silent
no-op").  `createdAt` (`new Date().toISOString()` in the source) is passed in
as the current-time string `now`.

`addTodo` and `updateTodo` guard their text argument with the JavaScript test
`!text || text.trim() === ''`; over actual strings `!text` means `text = ""`.
Since JavaScript also lets callers pass non-string values, a second layer
(`JSVal`, `addTodoJS`, `updateTodoJS`) embeds the dynamically typed call
surface: `null`/`undefined` are falsy and rejected by the guard, while a
truthy non-string reaches `.trim()` and raises a `TypeError`.
-/

namespace TodoApp

/-- A todo item as constructed by `addTodo`. -/
structure Todo where
  id : Nat
  text : String
  completed : Bool
  createdAt : String
deriving Repr, DecidableEq

/-- The state of the `TodoModel`: the in-memory list and counter, plus
counters for the `save()` (persistence) and `notify()` (listener) effects. -/
structure Store where
  todos : List Todo
  nextId : Nat
  saveCount : Nat
  notifyCount : Nat
deriving Repr, DecidableEq

/-- A store constructed from empty storage: `load('items', [])` and
`load('nextId', 1)` return the defaults. -/
def initStore : Store :=
  { todos := [], nextId := 1, saveCount := 0, notifyCount := 0 }

/-- Embedding of JavaScript `String.prototype.trim()`: strip leading and
trailing whitespace. -/
def jsTrim (s : String) : String :=
  ⟨((s.data.dropWhile Char.isWhitespace).reverse.dropWhile Char.isWhitespace).reverse⟩

/-- Model of the private `save()` method: one write of the full snapshot
(`items` and `nextId`) to the storage adapter. -/
def save (s : Store) : Store :=
  { s with saveCount := s.saveCount + 1 }

/-- Model of the private `notify()` method: every subscribed listener is
invoked once. -/
def notify (s : Store) : Store :=
  { s with notifyCount := s.notifyCount + 1 }

/-- `addTodo(text)`: `none` stands for `null`/`undefined` (falsy, rejected by
`!text`); for a string, `!text || text.trim() === ''` rejects `""` and
whitespace-only text; otherwise a new item with `id = nextId` (then `nextId`
incremented), the trimmed text, `completed = false` and `createdAt = now` is
pushed, then `save()` and `notify()`. -/
def addTodo (s : Store) (now : String) (text : Option String) : Store :=
  match text with
  | none => s
  | some t =>
    if t = "" ∨ jsTrim t = "" then s
    else
      notify (save { s with
        todos := s.todos ++
          [{ id := s.nextId, text := jsTrim t, completed := false, createdAt := now }],
        nextId := s.nextId + 1 })

/-- `this.todos.find(t => t.id === id)` followed by mutating the found item's
`completed` field: flips `completed` on the first item whose `id` matches,
returning `none` when no item matches. -/
def toggleFirst (id : Nat) : List Todo → Option (List Todo)
  | [] => none
  | t :: ts =>
    if t.id = id then some ({ t with completed := !t.completed } :: ts)
    else (toggleFirst id ts).map (fun l => t :: l)

/-- `toggleComplete(id)`: if an item with this `id` exists, flip its
`completed` flag, then `save()` and `notify()`; otherwise do nothing. -/
def toggleComplete (s : Store) (id : Nat) : Store :=
  match toggleFirst id s.todos with
  | none => s
  | some ts => notify (save { s with todos := ts })

/-- `this.todos.find(t => t.id === id)` followed by mutating the found item's
`text` field: replaces `text` on the first item whose `id` matches. -/
def updateFirst (id : Nat) (newText : String) : List Todo → Option (List Todo)
  | [] => none
  | t :: ts =>
    if t.id = id then some ({ t with text := newText } :: ts)
    else (updateFirst id newText ts).map (fun l => t :: l)

/-- `updateTodo(id, newText)`: if the item is found and `newText` passes the
truthy-and-nonblank guard, replace its `text` with `newText.trim()`, then
`save()` and `notify()`; otherwise do nothing. -/
def updateTodo (s : Store) (id : Nat) (newText : Option String) : Store :=
  match newText with
  | none => s
  | some nt =>
    if nt = "" ∨ jsTrim nt = "" then s
    else
      match updateFirst id (jsTrim nt) s.todos with
      | none => s
      | some ts => notify (save { s with todos := ts })

/-- `deleteTodo(id)`: `this.todos = this.todos.filter(t => t.id !== id)`,
then `save()` and `notify()` unconditionally. -/
def deleteTodo (s : Store) (id : Nat) : Store :=
  notify (save { s with todos := s.todos.filter (fun t => t.id != id) })

/-- `clearCompleted()`: `this.todos = this.todos.filter(t => !t.completed)`,
then `save()` and `notify()` unconditionally. -/
def clearCompleted (s : Store) : Store :=
  notify (save { s with todos := s.todos.filter (fun t => !t.completed) })

/-- `clearAll()`: `this.todos = []`, then `save()` and `notify()`. -/
def clearAll (s : Store) : Store :=
  notify (save { s with todos := [] })

/-- `get activeCount()`: number of items with `completed == false`. -/
def activeCount (s : Store) : Nat :=
  (s.todos.filter (fun t => !t.completed)).length

/-- `get completedCount()`: number of items with `completed == true`. -/
def completedCount (s : Store) : Nat :=
  (s.todos.filter (fun t => t.completed)).length

/-- One invocation of a public mutating operation of the Todo Store. -/
inductive Op where
  | add (now : String) (text : Option String)
  | toggle (id : Nat)
  | delete (id : Nat)
  | update (id : Nat) (text : Option String)
  | clearCompleted
  | clearAll
deriving Repr, DecidableEq

/-- Apply one operation to the store. -/
def applyOp (s : Store) : Op → Store
  | .add now text => addTodo s now text
  | .toggle id => toggleComplete s id
  | .delete id => deleteTodo s id
  | .update id text => updateTodo s id text
  | .clearCompleted => TodoApp.clearCompleted s
  | .clearAll => TodoApp.clearAll s

/-- Apply a sequence of operations, first one first. -/
def applyOps (s : Store) (ops : List Op) : Store :=
  ops.foldl applyOp s

/-- The ids currently present in a todo list. -/
def idsOf (l : List Todo) : List Nat :=
  l.map (fun t => t.id)

/-- The data-model invariant: all ids are unique and `nextId` is strictly
greater than every id in the list. -/
def Inv (s : Store) : Prop :=
  (idsOf s.todos).Nodup ∧ ∀ t ∈ s.todos, t.id < s.nextId

/-- A JavaScript value that a dynamically typed caller may pass as the text
argument of `addTodo` / `updateTodo`. -/
inductive JSVal where
  | null
  | undef
  | str (s : String)
  | num (n : Int)
  | boolean (b : Bool)
deriving Repr, DecidableEq

/-- JavaScript truthiness of a `JSVal`: `null`, `undefined`, `''`, `0` and
`false` are falsy. -/
def truthy : JSVal → Bool
  | .null => false
  | .undef => false
  | .str s => s != ""
  | .num n => n != 0
  | .boolean b => b

/-- `addTodo(text)` over the dynamically typed call surface.  The guard
`!text || text.trim() === ''` short-circuits on a falsy argument; a truthy
string proceeds as in `addTodo`; a truthy non-string reaches `text.trim()`,
which raises a `TypeError` because only strings have `trim`. -/
def addTodoJS (s : Store) (now : String) (v : JSVal) : Except String Store :=
  if truthy v = false then .ok s
  else
    match v with
    | .str t => .ok (addTodo s now (some t))
    | _ => .error "TypeError: text.trim is not a function"

/-- `updateTodo(id, newText)` over the dynamically typed call surface.  The
guard `todo && newText && newText.trim() !== ''` first looks the item up, then
tests truthiness, and only then calls `newText.trim()`, which raises a
`TypeError` when a truthy non-string was passed and the item exists. -/
def updateTodoJS (s : Store) (id : Nat) (v : JSVal) : Except String Store :=
  match s.todos.find? (fun t => t.id == id) with
  | none => .ok s
  | some _ =>
    if truthy v = false then .ok s
    else
      match v with
      | .str nt => .ok (updateTodo s id (some nt))
      | _ => .error "TypeError: newText.trim is not a function"

/-! ### Helper lemmas -/

/-- The active-count and completed-count filters partition any todo list. -/
theorem length_filter_partition (l : List Todo) :
    (l.filter (fun t => !t.completed)).length + (l.filter (fun t => t.completed)).length
      = l.length := by
  induction l with
  | nil => rfl
  | cons t ts ih => cases hc : t.completed <;> simp [List.filter_cons, hc] <;> omega

/-- When no item matches, `toggleFirst` finds nothing. -/
theorem toggleFirst_eq_none (id : Nat) (l : List Todo) (h : ∀ u ∈ l, u.id ≠ id) :
    toggleFirst id l = none := by
  induction l with
  | nil => rfl
  | cons t ts ih =>
    have ht : t.id ≠ id := h t (List.mem_cons_self t ts)
    simp [toggleFirst, ht, ih (fun u hu => h u (List.mem_cons_of_mem t hu))]

/-- `toggleFirst` on a list whose first match is `t` flips exactly `t`. -/
theorem toggleFirst_app (id : Nat) (l1 : List Todo) (t : Todo) (l2 : List Todo)
    (h1 : ∀ u ∈ l1, u.id ≠ id) (ht : t.id = id) :
    toggleFirst id (l1 ++ t :: l2)
      = some (l1 ++ { t with completed := !t.completed } :: l2) := by
  induction l1 with
  | nil => simp [toggleFirst, ht]
  | cons u us ih =>
    have hu : u.id ≠ id := h1 u (List.mem_cons_self u us)
    simp [toggleFirst, hu, ih (fun v hv => h1 v (List.mem_cons_of_mem u hv))]

/-- Toggling an item does not change the sequence of ids. -/
theorem toggleFirst_idsOf (id : Nat) (l l' : List Todo)
    (h : toggleFirst id l = some l') : idsOf l' = idsOf l := by
  induction l generalizing l' with
  | nil => simp [toggleFirst] at h
  | cons t ts ih =>
    by_cases ht : t.id = id
    · simp [toggleFirst, ht] at h
      subst h
      simp [idsOf, ht]
    · cases hts : toggleFirst id ts with
      | none => simp [toggleFirst, ht, hts] at h
      | some m =>
        simp [toggleFirst, ht, hts] at h
        subst h
        simpa [idsOf] using ih m hts

/-- When no item matches, `updateFirst` finds nothing. -/
theorem updateFirst_eq_none (id : Nat) (nt : String) (l : List Todo)
    (h : ∀ u ∈ l, u.id ≠ id) : updateFirst id nt l = none := by
  induction l with
  | nil => rfl
  | cons t ts ih =>
    have ht : t.id ≠ id := h t (List.mem_cons_self t ts)
    simp [updateFirst, ht, ih (fun u hu => h u (List.mem_cons_of_mem t hu))]

/-- `updateFirst` on a list whose first match is `t` rewrites exactly `t`. -/
theorem updateFirst_app (id : Nat) (nt : String) (l1 : List Todo) (t : Todo) (l2 : List Todo)
    (h1 : ∀ u ∈ l1, u.id ≠ id) (ht : t.id = id) :
    updateFirst id nt (l1 ++ t :: l2)
      = some (l1 ++ { t with text := nt } :: l2) := by
  induction l1 with
  | nil => simp [updateFirst, ht]
  | cons u us ih =>
    have hu : u.id ≠ id := h1 u (List.mem_cons_self u us)
    simp [updateFirst, hu, ih (fun v hv => h1 v (List.mem_cons_of_mem u hv))]

/-- Updating an item's text does not change the sequence of ids. -/
theorem updateFirst_idsOf (id : Nat) (nt : String) (l l' : List Todo)
    (h : updateFirst id nt l = some l') : idsOf l' = idsOf l := by
  induction l generalizing l' with
  | nil => simp [updateFirst] at h
  | cons t ts ih =>
    by_cases ht : t.id = id
    · simp [updateFirst, ht] at h
      subst h
      simp [idsOf, ht]
    · cases hts : updateFirst id nt ts with
      | none => simp [updateFirst, ht, hts] at h
      | some m =>
        simp [updateFirst, ht, hts] at h
        subst h
        simpa [idsOf] using ih m hts

/-- A store whose ids coincide with those of an invariant-satisfying store
(and with the same counter) satisfies the invariant. -/
theorem Inv_of_idsOf_eq (s : Store) (l : List Todo)
    (hids : idsOf l = idsOf s.todos) (h : Inv s) (n1 n2 : Nat) :
    Inv { todos := l, nextId := s.nextId, saveCount := n1, notifyCount := n2 } := by
  obtain ⟨hnd, hlt⟩ := h
  refine ⟨by simpa [hids] using hnd, ?_⟩
  intro t htl
  have : t.id ∈ idsOf s.todos := by
    rw [← hids]
    exact List.mem_map_of_mem _ htl
  obtain ⟨u, hu, hui⟩ := List.mem_map.mp this
  simpa [← hui] using hlt u hu

/-- A filtered store keeps the invariant. -/
theorem Inv_of_filter (s : Store) (p : Todo → Bool) (h : Inv s) (n1 n2 : Nat) :
    Inv { todos := s.todos.filter p, nextId := s.nextId, saveCount := n1, notifyCount := n2 } := by
  obtain ⟨hnd, hlt⟩ := h
  refine ⟨?_, ?_⟩
  · exact hnd.sublist ((List.filter_sublist s.todos).map _)
  · intro t htl
    exact hlt t (List.mem_of_mem_filter htl)

/-- Appending a fresh item carrying the current `nextId` and bumping the
counter keeps the invariant. -/
theorem Inv_append_fresh (s : Store) (txt now : String) (h : Inv s) (n1 n2 : Nat) :
    Inv { todos := s.todos ++ [{ id := s.nextId, text := txt, completed := false, createdAt := now }],
          nextId := s.nextId + 1, saveCount := n1, notifyCount := n2 } := by
  obtain ⟨hnd, hlt⟩ := h
  refine ⟨?_, ?_⟩
  · simp only [idsOf, List.map_append, List.map_cons, List.map_nil]
    rw [List.nodup_append]
    refine ⟨hnd, List.nodup_singleton _, ?_⟩
    intro a ha hb
    simp only [List.mem_singleton] at hb
    obtain ⟨u, hu, hui⟩ := List.mem_map.mp ha
    exact absurd (hui.trans hb) (Nat.ne_of_lt (hlt u hu))
  · intro t htl
    rcases List.mem_append.mp htl with h1 | h2
    · exact Nat.lt_succ_of_lt (hlt t h1)
    · simp only [List.mem_singleton] at h2
      subst h2
      exact Nat.lt_succ_self _

/-- `addTodo` preserves the invariant. -/
theorem Inv_addTodo (s : Store) (now : String) (text : Option String) (h : Inv s) :
    Inv (addTodo s now text) := by
  cases text with
  | none => exact h
  | some t =>
    by_cases hg : t = "" ∨ jsTrim t = ""
    · simpa [addTodo, hg] using h
    · have := Inv_append_fresh s (jsTrim t) now h (s.saveCount + 1) (s.notifyCount + 1)
      simpa [addTodo, hg, notify, save] using this

/-- `toggleComplete` preserves the invariant. -/
theorem Inv_toggleComplete (s : Store) (id : Nat) (h : Inv s) :
    Inv (toggleComplete s id) := by
  cases hts : toggleFirst id s.todos with
  | none => simpa [toggleComplete, hts] using h
  | some ts =>
    have hids := toggleFirst_idsOf id s.todos ts hts
    have := Inv_of_idsOf_eq s ts hids h (s.saveCount + 1) (s.notifyCount + 1)
    simpa [toggleComplete, hts, notify, save] using this

/-- `updateTodo` preserves the invariant. -/
theorem Inv_updateTodo (s : Store) (id : Nat) (text : Option String) (h : Inv s) :
    Inv (updateTodo s id text) := by
  cases text with
  | none => exact h
  | some nt =>
    by_cases hg : nt = "" ∨ jsTrim nt = ""
    · simpa [updateTodo, hg] using h
    · cases hts : updateFirst id (jsTrim nt) s.todos with
      | none => simpa [updateTodo, hg, hts] using h
      | some ts =>
        have hids := updateFirst_idsOf id (jsTrim nt) s.todos ts hts
        have := Inv_of_idsOf_eq s ts hids h (s.saveCount + 1) (s.notifyCount + 1)
        simpa [updateTodo, hg, hts, notify, save] using this

/-- `deleteTodo` preserves the invariant. -/
theorem Inv_deleteTodo (s : Store) (id : Nat) (h : Inv s) :
    Inv (deleteTodo s id) := by
  have := Inv_of_filter s (fun t => t.id != id) h (s.saveCount + 1) (s.notifyCount + 1)
  simpa [deleteTodo, notify, save] using this

/-- `clearCompleted` preserves the invariant. -/
theorem Inv_clearCompleted (s : Store) (h : Inv s) :
    Inv (TodoApp.clearCompleted s) := by
  have := Inv_of_filter s (fun t => !t.completed) h (s.saveCount + 1) (s.notifyCount + 1)
  simpa [clearCompleted, notify, save] using this

/-- `clearAll` preserves the invariant. -/
theorem Inv_clearAll (s : Store) (_h : Inv s) :
    Inv (TodoApp.clearAll s) := by
  refine ⟨?_, ?_⟩ <;> simp [clearAll, notify, save, idsOf]

/-- Every single operation preserves the invariant. -/
theorem Inv_applyOp (s : Store) (o : Op) (h : Inv s) : Inv (applyOp s o) := by
  cases o with
  | add now text => exact Inv_addTodo s now text h
  | toggle id => exact Inv_toggleComplete s id h
  | delete id => exact Inv_deleteTodo s id h
  | update id text => exact Inv_updateTodo s id text h
  | clearCompleted => exact Inv_clearCompleted s h
  | clearAll => exact Inv_clearAll s h

/-- The freshly constructed store satisfies the invariant. -/
theorem Inv_initStore : Inv initStore := by
  refine ⟨?_, ?_⟩ <;> simp [initStore, idsOf]

/-- Every sequence of operations preserves the invariant. -/
theorem Inv_applyOps (ops : List Op) (s : Store) (h : Inv s) :
    Inv (applyOps s ops) := by
  induction ops generalizing s with
  | nil => exact h
  | cons o os ih => exact ih (applyOp s o) (Inv_applyOp s o h)

/-! ### Claims -/

/-- Claim C1: after any sequence of operations applied to a store constructed
from empty storage, `activeCount + completedCount` equals the number of todos,
every id occurring in the list is unique, and `nextId` is strictly greater
than every id in the list. -/
theorem counts_and_ids_invariant (ops : List Op) :
    activeCount (applyOps initStore ops) + completedCount (applyOps initStore ops)
        = (applyOps initStore ops).todos.length
    ∧ (idsOf (applyOps initStore ops).todos).Nodup
    ∧ ∀ t ∈ (applyOps initStore ops).todos, t.id < (applyOps initStore ops).nextId := by
  obtain ⟨h1, h2⟩ := Inv_applyOps ops initStore Inv_initStore
  exact ⟨length_filter_partition _, h1, h2⟩

/-- Concrete instantiation of the claim C1 theorem after one `addTodo`. -/
theorem counts_and_ids_invariant_witness :
    activeCount (applyOps initStore [Op.add "t0" (some "A")])
        + completedCount (applyOps initStore [Op.add "t0" (some "A")])
        = (applyOps initStore [Op.add "t0" (some "A")]).todos.length
    ∧ ({ id := 1, text := "A", completed := false, createdAt := "t0" } : Todo).id
        < (applyOps initStore [Op.add "t0" (some "A")]).nextId := by
  have h := counts_and_ids_invariant [Op.add "t0" (some "A")]
  exact ⟨h.1, h.2.2 { id := 1, text := "A", completed := false, createdAt := "t0" } (by decide)⟩

/-- Claim C2: for a text whose trim is non-empty, `addTodo` appends exactly
one new item at the end, carrying the trimmed text, `completed = false` and
`id` equal to the pre-call `nextId` — which strictly exceeds every id already
issued to the list — and increments `nextId` by one. -/
theorem addTodo_nonempty_spec (s : Store) (now t : String)
    (hne : jsTrim t ≠ "") (hinv : ∀ u ∈ s.todos, u.id < s.nextId) :
    (addTodo s now (some t)).todos
        = s.todos ++ [{ id := s.nextId, text := jsTrim t, completed := false, createdAt := now }]
    ∧ (addTodo s now (some t)).todos.length = s.todos.length + 1
    ∧ (addTodo s now (some t)).nextId = s.nextId + 1
    ∧ ∀ u ∈ s.todos, u.id < s.nextId := by
  have hg : ¬(t = "" ∨ jsTrim t = "") := by
    rintro (rfl | he)
    · exact hne rfl
    · exact hne he
  refine ⟨?_, ?_, ?_, hinv⟩ <;> simp [addTodo, hg, notify, save]

/-- Concrete instantiation of the claim C2 theorem. -/
theorem addTodo_nonempty_spec_witness :
    (addTodo initStore "t0" (some " Buy milk ")).todos
        = [{ id := 1, text := "Buy milk", completed := false, createdAt := "t0" }]
    ∧ (addTodo initStore "t0" (some " Buy milk ")).nextId = 2 := by
  have h := addTodo_nonempty_spec initStore "t0" " Buy milk "
    (by decide) (by intro u hu; simp [initStore] at hu)
  constructor
  · rw [h.1]
    decide
  · rw [h.2.2.1]
    rfl

/-- Claim C3: for a string that trims to empty, `addTodo` is a silent no-op:
the entire store — todos, `nextId`, the persistence counter and the
notification counter — is unchanged. -/
theorem addTodo_blank_noop (s : Store) (now t : String) (h : jsTrim t = "") :
    addTodo s now (some t) = s := by
  simp [addTodo, h]

/-- Concrete instantiation of the claim C3 theorem. -/
theorem addTodo_blank_noop_witness :
    addTodo initStore "t0" (some "   ") = initStore :=
  addTodo_blank_noop initStore "t0" "   " (by decide)

/-- Claim C4: when an item with the given id exists and the new text trims to
non-empty, `updateTodo` replaces exactly that item's text with the trimmed
text and performs one save and one notification; when the id is absent or
the text trims to empty, the entire store is unchanged. -/
theorem updateTodo_spec (s : Store) (id : Nat) (nt : String) :
    (∀ l1 t l2, s.todos = l1 ++ t :: l2 → (∀ u ∈ l1, u.id ≠ id) → t.id = id →
        jsTrim nt ≠ "" →
        (updateTodo s id (some nt)).todos = l1 ++ { t with text := jsTrim nt } :: l2
        ∧ (updateTodo s id (some nt)).nextId = s.nextId
        ∧ (updateTodo s id (some nt)).saveCount = s.saveCount + 1
        ∧ (updateTodo s id (some nt)).notifyCount = s.notifyCount + 1)
    ∧ ((∀ u ∈ s.todos, u.id ≠ id) ∨ jsTrim nt = "" → updateTodo s id (some nt) = s) := by
  constructor
  · intro l1 t l2 hs h1 ht hne
    have hg : ¬(nt = "" ∨ jsTrim nt = "") := by
      rintro (rfl | he)
      · exact hne rfl
      · exact hne he
    have hup := updateFirst_app id (jsTrim nt) l1 t l2 h1 ht
    rw [← hs] at hup
    refine ⟨?_, ?_, ?_, ?_⟩ <;> simp [updateTodo, hg, hup, notify, save]
  · rintro (hnone | he)
    · have hup := updateFirst_eq_none id (jsTrim nt) s.todos hnone
      by_cases hg : nt = "" ∨ jsTrim nt = ""
      · simp [updateTodo, hg]
      · simp [updateTodo, hg, hup]
    · simp [updateTodo, he]

/-- A store holding one uncompleted item, used for concrete instantiations. -/
def oldStore : Store :=
  { todos := [{ id := 1, text := "Old", completed := false, createdAt := "t0" }],
    nextId := 2, saveCount := 1, notifyCount := 1 }

/-- Concrete instantiation of the claim C4 theorem: updating an existing item
with blank-padded text stores the trimmed text, and updating it with
whitespace leaves the store untouched. -/
theorem updateTodo_spec_witness :
    (updateTodo oldStore 1 (some " New ")).todos
        = [{ id := 1, text := "New", completed := false, createdAt := "t0" }]
    ∧ updateTodo oldStore 1 (some "   ") = oldStore := by
  have h1 := (updateTodo_spec oldStore 1 " New ").1
    [] { id := 1, text := "Old", completed := false, createdAt := "t0" } []
    (by decide) (by decide) (by decide) (by decide)
  have h2 := (updateTodo_spec oldStore 1 "   ").2 (Or.inr (by decide))
  constructor
  · rw [h1.1]
    decide
  · exact h2

/-- Claim C5: `deleteTodo` removes exactly the items carrying the given id
while keeping the remaining items in their relative order (the result is a
sublist of the original), leaves `nextId` alone, and performs one save and
one notification unconditionally — in particular when nothing matched, in
which case the list itself is unchanged. -/
theorem deleteTodo_spec (s : Store) (id : Nat) :
    (deleteTodo s id).todos.Sublist s.todos
    ∧ (∀ t ∈ (deleteTodo s id).todos, t.id ≠ id)
    ∧ (∀ t ∈ s.todos, t.id ≠ id → t ∈ (deleteTodo s id).todos)
    ∧ (deleteTodo s id).nextId = s.nextId
    ∧ (deleteTodo s id).saveCount = s.saveCount + 1
    ∧ (deleteTodo s id).notifyCount = s.notifyCount + 1
    ∧ ((∀ t ∈ s.todos, t.id ≠ id) → (deleteTodo s id).todos = s.todos) := by
  refine ⟨?_, ?_, ?_, rfl, rfl, rfl, ?_⟩
  · exact List.filter_sublist s.todos
  · intro t htl
    have := (List.mem_filter.mp htl).2
    simpa using this
  · intro t htl hne
    exact List.mem_filter.mpr ⟨htl, by simpa using hne⟩
  · intro hall
    show s.todos.filter (fun t => t.id != id) = s.todos
    apply List.filter_eq_self.mpr
    intro a ha
    simpa using hall a ha

/-- Concrete instantiation of the claim C5 theorem: deleting an absent id
leaves the list unchanged but still bumps the persistence counter. -/
theorem deleteTodo_spec_witness :
    (deleteTodo oldStore 99).todos = oldStore.todos
    ∧ (deleteTodo oldStore 99).saveCount = 2 := by
  have h := deleteTodo_spec oldStore 99
  constructor
  · exact h.2.2.2.2.2.2 (by decide)
  · rw [h.2.2.2.2.1]
    rfl

/-- Claim C6: on an existing id, one `toggleComplete` flips exactly that
item's `completed` flag and a second `toggleComplete` restores the original
list, so toggling is an involution on the item's completed state; on an
absent id, `toggleComplete` is a silent no-op. -/
theorem toggleComplete_spec (s : Store) (id : Nat) :
    (∀ l1 t l2, s.todos = l1 ++ t :: l2 → (∀ u ∈ l1, u.id ≠ id) → t.id = id →
        (toggleComplete s id).todos = l1 ++ { t with completed := !t.completed } :: l2
        ∧ (toggleComplete (toggleComplete s id) id).todos = s.todos)
    ∧ ((∀ u ∈ s.todos, u.id ≠ id) → toggleComplete s id = s) := by
  constructor
  · intro l1 t l2 hs h1 ht
    obtain ⟨ti, tx, tc, tca⟩ := t
    have h1t := toggleFirst_app id l1 ⟨ti, tx, tc, tca⟩ l2 h1 ht
    rw [← hs] at h1t
    have hmain : toggleComplete s id
        = { todos := l1 ++ (⟨ti, tx, !tc, tca⟩ : Todo) :: l2, nextId := s.nextId,
            saveCount := s.saveCount + 1, notifyCount := s.notifyCount + 1 } := by
      simp [toggleComplete, h1t, notify, save]
    have h2t := toggleFirst_app id l1 ⟨ti, tx, !tc, tca⟩ l2 h1 ht
    have e2 : (toggleComplete (toggleComplete s id) id).todos
        = l1 ++ (⟨ti, tx, !!tc, tca⟩ : Todo) :: l2 := by
      rw [hmain]
      simp [toggleComplete, h2t, notify, save]
    refine ⟨by rw [hmain], ?_⟩
    rw [e2, hs]
    simp
  · intro hall
    simp [toggleComplete, toggleFirst_eq_none id s.todos hall]

/-- Concrete instantiation of the claim C6 theorem: toggling twice restores
the list, and toggling an absent id changes nothing. -/
theorem toggleComplete_spec_witness :
    (toggleComplete (toggleComplete oldStore 1) 1).todos = oldStore.todos
    ∧ toggleComplete oldStore 2 = oldStore := by
  have h1 := (toggleComplete_spec oldStore 1).1
    [] { id := 1, text := "Old", completed := false, createdAt := "t0" } []
    (by decide) (by decide) (by decide)
  have h2 := (toggleComplete_spec oldStore 2).2 (by decide)
  exact ⟨h1.2, h2⟩

/-- Claim C7: `clearCompleted` removes exactly the completed items and keeps
the rest in order (the result is a sublist containing precisely the
uncompleted items), is idempotent on the todo list, and performs one save and
one notification unconditionally, even when nothing was completed. -/
theorem clearCompleted_spec (s : Store) :
    (clearCompleted s).todos.Sublist s.todos
    ∧ (∀ t ∈ (clearCompleted s).todos, t.completed = false)
    ∧ (∀ t ∈ s.todos, t.completed = false → t ∈ (clearCompleted s).todos)
    ∧ (clearCompleted (clearCompleted s)).todos = (clearCompleted s).todos
    ∧ (clearCompleted s).saveCount = s.saveCount + 1
    ∧ (clearCompleted s).notifyCount = s.notifyCount + 1 := by
  refine ⟨?_, ?_, ?_, ?_, rfl, rfl⟩
  · exact List.filter_sublist s.todos
  · intro t htl
    have := (List.mem_filter.mp htl).2
    simpa using this
  · intro t htl hc
    exact List.mem_filter.mpr ⟨htl, by simp [hc]⟩
  · show ((s.todos.filter (fun t => !t.completed)).filter (fun t => !t.completed))
        = s.todos.filter (fun t => !t.completed)
    rw [List.filter_filter]
    simp

/-- A store holding one completed and one active item. -/
def abStore : Store :=
  { todos := [{ id := 1, text := "A", completed := true, createdAt := "t0" },
              { id := 2, text := "B", completed := false, createdAt := "t1" }],
    nextId := 3, saveCount := 3, notifyCount := 3 }

/-- Concrete instantiation of the claim C7 theorem on a store with one
completed and one active item. -/
theorem clearCompleted_spec_witness :
    (clearCompleted (clearCompleted abStore)).todos = (clearCompleted abStore).todos
    ∧ ({ id := 2, text := "B", completed := false, createdAt := "t1" } : Todo)
        ∈ (clearCompleted abStore).todos := by
  have h := clearCompleted_spec abStore
  exact ⟨h.2.2.2.1,
    h.2.2.1 { id := 2, text := "B", completed := false, createdAt := "t1" } (by decide) (by decide)⟩

/-- Claim C8 counterexample: `addTodo` called with the number `1` — a truthy
value that is not a string — evaluates `text.trim()` and raises a TypeError
instead of completing, so not every input value is safe. -/
theorem addTodoJS_num_raises :
    addTodoJS initStore "t0" (JSVal.num 1)
      = Except.error "TypeError: text.trim is not a function" := rfl

/-- Claim C8 (amended): for every text argument in the documented interface
domain — a string, `null` or `undefined` — and every id, `addTodo` and
`updateTodo` complete without raising an error (the remaining operations take
only ids and are total). -/
theorem ops_never_raise (s : Store) (now : String) (id : Nat) (v : JSVal)
    (hv : v = JSVal.null ∨ v = JSVal.undef ∨ ∃ t, v = JSVal.str t) :
    (∃ s1, addTodoJS s now v = Except.ok s1)
    ∧ ∃ s2, updateTodoJS s id v = Except.ok s2 := by
  constructor
  · rcases hv with rfl | rfl | ⟨t, rfl⟩
    · exact ⟨s, rfl⟩
    · exact ⟨s, rfl⟩
    · by_cases h : t = ""
      · subst h
        exact ⟨s, rfl⟩
      · exact ⟨addTodo s now (some t), by simp [addTodoJS, truthy, h]⟩
  · cases hf : s.todos.find? (fun t => t.id == id) with
    | none => exact ⟨s, by simp [updateTodoJS, hf]⟩
    | some u =>
      rcases hv with rfl | rfl | ⟨t, rfl⟩
      · exact ⟨s, by simp [updateTodoJS, hf, truthy]⟩
      · exact ⟨s, by simp [updateTodoJS, hf, truthy]⟩
      · by_cases h : t = ""
        · subst h
          exact ⟨s, by simp [updateTodoJS, hf, truthy]⟩
        · exact ⟨updateTodo s id (some t), by simp [updateTodoJS, hf, truthy, h]⟩

/-- Concrete instantiation of the amended claim C8 theorem. -/
theorem ops_never_raise_witness :
    (∃ s1, addTodoJS initStore "t0" (JSVal.str "A") = Except.ok s1)
    ∧ ∃ s2, updateTodoJS initStore 1 (JSVal.str "A") = Except.ok s2 :=
  ops_never_raise initStore "t0" 1 (JSVal.str "A") (Or.inr (Or.inr ⟨"A", rfl⟩))

/-- Claim C9: `toggleComplete` and `updateTodo` leave every item other than
the matching one entirely unchanged, and on the matching item
`toggleComplete` changes only the `completed` field and `updateTodo` changes
only the `text` field, each preserving `id`, `createdAt` and the other
field. -/
theorem frame_toggle_update (s : Store) (id : Nat) (l1 : List Todo) (t : Todo)
    (l2 : List Todo) (hs : s.todos = l1 ++ t :: l2)
    (h1 : ∀ u ∈ l1, u.id ≠ id) (ht : t.id = id) :
    (toggleComplete s id).todos
        = l1 ++ { id := t.id, text := t.text, completed := !t.completed,
                  createdAt := t.createdAt } :: l2
    ∧ ∀ nt : String, jsTrim nt ≠ "" →
        (updateTodo s id (some nt)).todos
          = l1 ++ { id := t.id, text := jsTrim nt, completed := t.completed,
                    createdAt := t.createdAt } :: l2 := by
  constructor
  · have h1t := toggleFirst_app id l1 t l2 h1 ht
    rw [← hs] at h1t
    simp [toggleComplete, h1t, notify, save]
  · intro nt hnt
    have hg : ¬(nt = "" ∨ jsTrim nt = "") := by
      rintro (rfl | he)
      · exact hnt rfl
      · exact hnt he
    have hup := updateFirst_app id (jsTrim nt) l1 t l2 h1 ht
    rw [← hs] at hup
    simp [updateTodo, hg, hup, notify, save]

/-- A store holding two active items. -/
def twoActiveStore : Store :=
  { todos := [{ id := 1, text := "A", completed := false, createdAt := "t0" },
              { id := 2, text := "B", completed := false, createdAt := "t1" }],
    nextId := 3, saveCount := 2, notifyCount := 2 }

/-- Concrete instantiation of the claim C9 theorem: the other item of a
two-item store is untouched and only the addressed field changes. -/
theorem frame_toggle_update_witness :
    (toggleComplete twoActiveStore 2).todos
      = [{ id := 1, text := "A", completed := false, createdAt := "t0" },
         { id := 2, text := "B", completed := true, createdAt := "t1" }]
    ∧ (updateTodo twoActiveStore 2 (some " C ")).todos
      = [{ id := 1, text := "A", completed := false, createdAt := "t0" },
         { id := 2, text := "C", completed := false, createdAt := "t1" }] := by
  have h := frame_toggle_update twoActiveStore 2
    [{ id := 1, text := "A", completed := false, createdAt := "t0" }]
    { id := 2, text := "B", completed := false, createdAt := "t1" } []
    (by decide) (by decide) (by decide)
  constructor
  · rw [h.1]
    decide
  · rw [h.2 " C " (by decide)]
    decide

/-- Claim C10: calling `addTodo` with `null` or `undefined` is a silent
no-op: the falsiness guard `!text` rejects the value before `trim` is
reached, so the store — todos, `nextId` and both effect counters — is
returned unchanged and no error is raised. -/
theorem addTodo_nullish_noop (s : Store) (now : String) :
    addTodoJS s now JSVal.null = Except.ok s
    ∧ addTodoJS s now JSVal.undef = Except.ok s
    ∧ addTodo s now none = s :=
  ⟨rfl, rfl, rfl⟩

end TodoApp
